import Mathlib

/-!
# silk-cni: the ADD / DEL orchestrator

A shallow embedding of `cmd/silk-cni/main.go`.  The two commands `cmdAdd` and
`cmdDel` are sequences of calls to collaborators (validator, network-info
discoverer, IPAM delegate, config creator, veth/host/container setup, bandwidth
shaping, lease store, logger).  Each collaborator call is a function on an
explicit world state `σ` that returns either a value or the text of a Go error.
The orchestrator itself is translated statement by statement.
-/

namespace Silk

/-! ## Data model -/

/-- Library values that the orchestrator only passes from one collaborator to the
next without looking inside: `types.Result`, `*current.Result`, `*config.Config`
and `ns.NetNS`. -/
structure Lib where
  Result : Type
  Current : Type
  Config : Type
  NetNS : Type

/-- The `skel.CmdArgs` of one invocation. -/
structure CmdArgs where
  ContainerID : String
  Netns : String
  IfName : String
  Args : String
  Path : String
  StdinData : String
deriving DecidableEq, Repr

/-- The `BandwidthLimits` struct: two Go `int`s. -/
structure BandwidthLimits where
  Rate : Int
  Burst : Int
deriving DecidableEq, Repr

/-- The `NetConf` struct.  The embedded `types.NetConf` contributes `CNIVersion`,
`Name`, `Type` (here `PluginType`) and the IPAM type; its remaining members are never read here. -/
structure NetConf where
  CNIVersion : String
  Name : String
  PluginType : String
  IPAMType : String
  DataDir : String
  SubnetFile : String
  MTU : Int
  Datastore : String
  DaemonPort : Int
  BandwidthLimits : BandwidthLimits
deriving DecidableEq, Repr

/-- The `daemon.NetworkInfo` returned by discovery. -/
structure NetworkInfo where
  OverlaySubnet : String
  MTU : Int
deriving DecidableEq, Repr

/-- The `types.Error` struct. -/
structure TypesError where
  Code : Nat
  Msg : String
  Details : String
deriving DecidableEq, Repr

/-- A non-nil Go `error` returned by a command: either a `*types.Error` or any
other error value, the latter given by its `Error()` text. -/
inductive GoError where
  | typed (e : TypesError)
  | other (text : String)
deriving DecidableEq, Repr

/-- The backend placed in `discoverer.NetInfo` by `getNetworkInfo`. -/
inductive NetInfoSource where
  | flannel (subnetFilePath : String)
  | daemon (baseURL : String)
deriving DecidableEq, Repr

/-- A collaborator call: from a world state to a value or an error text, and the
next world state. -/
abbrev Op (σ α : Type) : Type := σ → Except String α × σ

/-- The collaborators of the plugin: the members of the `CNIPlugin` struct, and the
library functions that `cmdAdd`, `cmdDel` and `getNetworkInfo` call.  Functions
without an effect on the world (`json.Unmarshal`, the IPAM request builder,
`current.NewResultFromResult`, the accessors of the attachment config) are pure. -/
structure CNIPlugin (σ : Type) (L : Lib) where
  /-- The field `p.HostNS`. -/
  HostNS : L.NetNS
  /-- The call `json.Unmarshal(args.StdinData, &netConf)`. -/
  jsonUnmarshal : String → Except String NetConf
  /-- The call `validator.Validate(netConf)`. -/
  validate : NetConf → Op σ Unit
  /-- The call `discoverer.Discover(mtu)` for the chosen backend. -/
  discover : NetInfoSource → Int → Op σ NetworkInfo
  /-- The bytes `json.Marshal(generator.GenerateConfig(subnet, name, dataDir))`. -/
  ipamConfigBytes : String → String → String → String
  /-- The call `invoke.DelegateAdd(plugin, bytes)`. -/
  delegateAdd : String → String → Op σ L.Result
  /-- The call `invoke.DelegateDel(plugin, bytes)`. -/
  delegateDel : String → String → Op σ Unit
  /-- The call `current.NewResultFromResult(result)`. -/
  newResultFromResult : L.Result → Except String L.Current
  /-- The call `p.ConfigCreator.Create(hostNS, args, cniResult, mtu)`. -/
  configCreate : L.NetNS → CmdArgs → L.Current → Int → Op σ L.Config
  /-- The call `p.VethPairCreator.Create(cfg)`. -/
  vethPairCreate : L.Config → Op σ Unit
  /-- The call `p.Host.Setup(cfg)`. -/
  hostSetup : L.Config → Op σ Unit
  /-- The call `p.IFBCreator.Create(cfg)`. -/
  ifbCreate : L.Config → Op σ Unit
  /-- The call `p.IFBCreator.Teardown(containerNS, ifName)`. -/
  ifbTeardown : L.NetNS → String → Op σ Unit
  /-- The call `p.Bandwidth.InboundSetup(rate, burst, cfg)`. -/
  inboundSetup : Int → Int → L.Config → Op σ Unit
  /-- The call `p.Bandwidth.OutboundSetup(rate, burst, cfg)`. -/
  outboundSetup : Int → Int → L.Config → Op σ Unit
  /-- The call `p.Container.Setup(cfg)`. -/
  containerSetup : L.Config → Op σ Unit
  /-- The call `p.Container.Teardown(containerNS, ifName)`. -/
  containerTeardown : L.NetNS → String → Op σ Unit
  /-- The call `p.Store.Add(filePath, handle, ip, nil)`. -/
  storeAdd : String → String → String → Op σ Unit
  /-- The call `p.Store.Delete(filePath, handle)`; the removed record is dropped. -/
  storeDelete : String → String → Op σ Unit
  /-- The call `ns.GetNS(path)`. -/
  getNS : String → Op σ L.NetNS
  /-- The call `p.Logger.Error(action, err)`, which cannot fail. -/
  loggerError : String → String → σ → σ
  /-- The text `cfg.Container.Address.IP.String()`. -/
  containerAddressIP : L.Config → String
  /-- The value `cfg.AsCNIResult()`. -/
  asCNIResult : L.Config → L.Current
  /-- The call `types.PrintResult(result, cniVersion)`. -/
  printResult : L.Current → String → Op σ Unit

/-! ## Library functions with a fixed meaning -/

/-- Go `filepath.Base` on a slash-separated path: the last element, after the
trailing slashes are removed; `.` for the empty path and `/` for a path of
slashes only. -/
def filepathBase (path : String) : String :=
  if path = "" then "."
  else
    let stripped := (path.toList.reverse.dropWhile (fun c => c = '/')).reverse
    let last := (stripped.reverse.takeWhile (fun c => c ≠ '/')).reverse
    if last = [] then "/" else String.mk last

/-! ## The program -/

/-- The function `typedError`: `err` is given by its `Error()` text. -/
def typedError (msg : String) (err : String) : TypesError :=
  { Code := 100, Msg := msg, Details := err }

/-- The backend `getNetworkInfo` puts in the discoverer: the subnet file when one
is configured, the daemon on the loopback port otherwise. -/
def discovererFor (netConf : NetConf) : NetInfoSource :=
  if netConf.SubnetFile ≠ "" then .flannel netConf.SubnetFile
  else .daemon ("http://127.0.0.1:" ++ toString netConf.DaemonPort)

/-- The function `getNetworkInfo`. -/
def getNetworkInfo {σ : Type} {L : Lib} (p : CNIPlugin σ L) (netConf : NetConf) : Op σ NetworkInfo :=
  fun s0 =>
    match p.validate netConf s0 with
    | (.error err, s1) => (.error ("invalid config: " ++ err), s1)
    | (.ok _, s1) => p.discover (discovererFor netConf) netConf.MTU s1

/-- The method `cmdAdd`; `none` is the nil error. -/
def cmdAdd {σ : Type} {L : Lib} (p : CNIPlugin σ L) (args : CmdArgs) (s0 : σ) : Option GoError × σ :=
  match p.jsonUnmarshal args.StdinData with
  | .error err => (some (.other err), s0)
  | .ok netConf =>
  match getNetworkInfo p netConf s0 with
  | (.error err, s1) => (some (.typed (typedError "discover network info" err)), s1)
  | (.ok networkInfo, s1) =>
  match p.delegateAdd "host-local"
      (p.ipamConfigBytes networkInfo.OverlaySubnet netConf.Name netConf.DataDir) s1 with
  | (.error err, s2) => (some (.typed (typedError "run ipam plugin" err)), s2)
  | (.ok result, s2) =>
  match p.newResultFromResult result with
  | .error err => (some (.other ("convert result to current CNI version: " ++ err)), s2)
  | .ok cniResult =>
  match p.configCreate p.HostNS args cniResult networkInfo.MTU s2 with
  | (.error err, s3) => (some (.typed (typedError "create config" err)), s3)
  | (.ok cfg, s3) =>
  match p.vethPairCreate cfg s3 with
  | (.error err, s4) => (some (.typed (typedError "create veth pair" err)), s4)
  | (.ok _, s4) =>
  match p.hostSetup cfg s4 with
  | (.error err, s5) => (some (.typed (typedError "set up host" err)), s5)
  | (.ok _, s5) =>
  let rest : σ → Option GoError × σ := fun s8 =>
    match p.containerSetup cfg s8 with
    | (.error err, s9) => (some (.typed (typedError "set up container" err)), s9)
    | (.ok _, s9) =>
    match p.storeAdd netConf.Datastore (filepathBase args.Netns) (p.containerAddressIP cfg) s9 with
    | (.error err, s10) => (some (.typed (typedError "write container metadata" err)), s10)
    | (.ok _, s10) =>
    match p.printResult (p.asCNIResult cfg) netConf.CNIVersion s10 with
    | (.error err, s11) => (some (.other err), s11)
    | (.ok _, s11) => (none, s11)
  if netConf.BandwidthLimits.Rate > 0 ∧ netConf.BandwidthLimits.Burst > 0 then
    match p.ifbCreate cfg s5 with
    | (.error err, s6) => (some (.typed (typedError "set up ifb" err)), s6)
    | (.ok _, s6) =>
    match p.inboundSetup netConf.BandwidthLimits.Rate netConf.BandwidthLimits.Burst cfg s6 with
    | (.error err, s7) =>
      (some (.typed (typedError "set up inbound bandwidth limiting" err)), s7)
    | (.ok _, s7) =>
    match p.outboundSetup netConf.BandwidthLimits.Rate netConf.BandwidthLimits.Burst cfg s7 with
    | (.error err, s8) =>
      (some (.typed (typedError "set up outbound bandwidth limiting" err)), s8)
    | (.ok _, s8) => rest s8
  else rest s5

/-- The method `cmdDel`; `none` is the nil error. -/
def cmdDel {σ : Type} {L : Lib} (p : CNIPlugin σ L) (args : CmdArgs) (s0 : σ) : Option GoError × σ :=
  match p.jsonUnmarshal args.StdinData with
  | .error err => (some (.other err), s0)
  | .ok netConf =>
  let s2 :=
    match p.delegateDel "host-local" (p.ipamConfigBytes "0.0.0.0/0" netConf.Name netConf.DataDir) s0 with
    | (.error err, s1) => p.loggerError "host-local-ipam" err s1
    | (.ok _, s1) => s1
  match p.getNS args.Netns s2 with
  | (.error err, s3) => (none, p.loggerError "open-netns" err s3)
  | (.ok containerNS, s3) =>
  let s5 :=
    match p.ifbTeardown containerNS args.IfName s3 with
    | (.error err, s4) => p.loggerError "delete-ifb" err s4
    | (.ok _, s4) => s4
  match p.containerTeardown containerNS args.IfName s5 with
  | (.error err, s6) => (some (.typed (typedError "teardown failed" err)), s6)
  | (.ok _, s6) =>
  match p.storeDelete netConf.Datastore (filepathBase args.Netns) s6 with
  | (.error err, s7) => (none, p.loggerError "write-container-metadata" err s7)
  | (.ok _, s7) => (none, s7)

/-! ## Recording the calls of a run -/

/-- A call made to a collaborator, with its arguments. -/
inductive Call (L : Lib) where
  | validate (netConf : NetConf)
  | discover (src : NetInfoSource) (mtu : Int)
  | delegateAdd (plugin : String) (bytes : String)
  | delegateDel (plugin : String) (bytes : String)
  | configCreate (hostNS : L.NetNS) (args : CmdArgs) (cniResult : L.Current) (mtu : Int)
  | vethPairCreate (cfg : L.Config)
  | hostSetup (cfg : L.Config)
  | ifbCreate (cfg : L.Config)
  | ifbTeardown (containerNS : L.NetNS) (ifName : String)
  | inboundSetup (rate burst : Int) (cfg : L.Config)
  | outboundSetup (rate burst : Int) (cfg : L.Config)
  | containerSetup (cfg : L.Config)
  | containerTeardown (containerNS : L.NetNS) (ifName : String)
  | storeAdd (filePath handle ip : String)
  | storeDelete (filePath handle : String)
  | getNS (path : String)
  | loggerError (action : String) (err : String)
  | printResult (result : L.Current) (version : String)

/-- The collaborator method a call goes to. -/
inductive Step where
  | validate | discover | delegateAdd | delegateDel | configCreate | vethPairCreate
  | hostSetup | ifbCreate | ifbTeardown | inboundSetup | outboundSetup | containerSetup
  | containerTeardown | storeAdd | storeDelete | getNS | loggerError | printResult
deriving DecidableEq, Repr

/-- The method of a call, its arguments dropped. -/
def Call.step {L : Lib} : Call L → Step
  | .validate _ => .validate
  | .discover _ _ => .discover
  | .delegateAdd _ _ => .delegateAdd
  | .delegateDel _ _ => .delegateDel
  | .configCreate _ _ _ _ => .configCreate
  | .vethPairCreate _ => .vethPairCreate
  | .hostSetup _ => .hostSetup
  | .ifbCreate _ => .ifbCreate
  | .ifbTeardown _ _ => .ifbTeardown
  | .inboundSetup _ _ _ => .inboundSetup
  | .outboundSetup _ _ _ => .outboundSetup
  | .containerSetup _ => .containerSetup
  | .containerTeardown _ _ => .containerTeardown
  | .storeAdd _ _ _ => .storeAdd
  | .storeDelete _ _ => .storeDelete
  | .getNS _ => .getNS
  | .loggerError _ _ => .loggerError
  | .printResult _ _ => .printResult

/-- One line of the record of a run: the call and the error text it returned
(`none` when it returned no error). -/
structure Entry (L : Lib) where
  call : Call L
  err : Option String

/-- The error text of a result. -/
def errText {α : Type} : Except String α → Option String
  | .error e => some e
  | .ok _ => none

/-- Run a collaborator call and append it, with its outcome, to the record. -/
def record {σ α : Type} {L : Lib} (c : Call L) (f : Op σ α) : Op (σ × List (Entry L)) α :=
  fun st => ((f st.1).1, ((f st.1).2, st.2 ++ [⟨c, errText (f st.1).1⟩]))

/-- The same collaborators, every call to one of them recorded in order.  The pure
functions are unchanged. -/
def traced {σ : Type} {L : Lib} (p : CNIPlugin σ L) : CNIPlugin (σ × List (Entry L)) L where
  HostNS := p.HostNS
  jsonUnmarshal := p.jsonUnmarshal
  validate := fun n => record (.validate n) (p.validate n)
  discover := fun src mtu => record (.discover src mtu) (p.discover src mtu)
  ipamConfigBytes := p.ipamConfigBytes
  delegateAdd := fun pl b => record (.delegateAdd pl b) (p.delegateAdd pl b)
  delegateDel := fun pl b => record (.delegateDel pl b) (p.delegateDel pl b)
  newResultFromResult := p.newResultFromResult
  configCreate := fun h a r m => record (.configCreate h a r m) (p.configCreate h a r m)
  vethPairCreate := fun cfg => record (.vethPairCreate cfg) (p.vethPairCreate cfg)
  hostSetup := fun cfg => record (.hostSetup cfg) (p.hostSetup cfg)
  ifbCreate := fun cfg => record (.ifbCreate cfg) (p.ifbCreate cfg)
  ifbTeardown := fun n i => record (.ifbTeardown n i) (p.ifbTeardown n i)
  inboundSetup := fun r b cfg => record (.inboundSetup r b cfg) (p.inboundSetup r b cfg)
  outboundSetup := fun r b cfg => record (.outboundSetup r b cfg) (p.outboundSetup r b cfg)
  containerSetup := fun cfg => record (.containerSetup cfg) (p.containerSetup cfg)
  containerTeardown := fun n i => record (.containerTeardown n i) (p.containerTeardown n i)
  storeAdd := fun f h ip => record (.storeAdd f h ip) (p.storeAdd f h ip)
  storeDelete := fun f h => record (.storeDelete f h) (p.storeDelete f h)
  getNS := fun path => record (.getNS path) (p.getNS path)
  loggerError := fun a e st => (p.loggerError a e st.1, st.2 ++ [⟨.loggerError a e, none⟩])
  containerAddressIP := p.containerAddressIP
  asCNIResult := p.asCNIResult
  printResult := fun r v => record (.printResult r v) (p.printResult r v)

/-- The record of the calls `cmdAdd` makes, started from world state `s`. -/
def addTrace {σ : Type} {L : Lib} (p : CNIPlugin σ L) (args : CmdArgs) (s : σ) : List (Entry L) :=
  (cmdAdd (traced p) args (s, [])).2.2

/-- The record of the calls `cmdDel` makes, started from world state `s`. -/
def delTrace {σ : Type} {L : Lib} (p : CNIPlugin σ L) (args : CmdArgs) (s : σ) : List (Entry L) :=
  (cmdDel (traced p) args (s, [])).2.2

/-- The error `cmdAdd` returns, started from world state `s`. -/
def addResult {σ : Type} {L : Lib} (p : CNIPlugin σ L) (args : CmdArgs) (s : σ) : Option GoError :=
  (cmdAdd p args s).1

/-- The error `cmdDel` returns, started from world state `s`. -/
def delResult {σ : Type} {L : Lib} (p : CNIPlugin σ L) (args : CmdArgs) (s : σ) : Option GoError :=
  (cmdDel p args s).1

/-- The methods called in a record, in order, the logger lines left out. -/
def calls {L : Lib} (tr : List (Entry L)) : List Step :=
  (tr.map (fun e => e.call.step)).filter (fun st => st ≠ .loggerError)

/-- Whether a call to the method `st` returned an error in the record. -/
def failed {L : Lib} (tr : List (Entry L)) (st : Step) : Bool :=
  tr.any (fun e => e.call.step = st ∧ e.err.isSome)

/-! ## Theorems -/

/-- The logger line written for an outcome: one line for an error, none otherwise. -/
def logLine {L : Lib} (action : String) (r : Option String) : List (Entry L) :=
  match r with
  | some e => [⟨.loggerError action e, none⟩]
  | none => []

/-- The ways a run of `cmdDel` on the parsed configuration `n` ends: the returned
error, the final world state and the record of calls. -/
inductive DelRun {σ : Type} {L : Lib} (p : CNIPlugin σ L) (args : CmdArgs) (n : NetConf) :
    Option GoError × (σ × List (Entry L)) → Prop where
  | nsMissing (r1 : Option String) (e : String) (sf : σ) :
      DelRun p args n (none, sf,
        [⟨.delegateDel "host-local" (p.ipamConfigBytes "0.0.0.0/0" n.Name n.DataDir), r1⟩]
          ++ logLine "host-local-ipam" r1
          ++ [⟨.getNS args.Netns, some e⟩, ⟨.loggerError "open-netns" e, none⟩])
  | teardownFailed (r1 : Option String) (ns : L.NetNS) (r3 : Option String) (e : String)
      (sf : σ) :
      DelRun p args n (some (.typed ⟨100, "teardown failed", e⟩), sf,
        [⟨.delegateDel "host-local" (p.ipamConfigBytes "0.0.0.0/0" n.Name n.DataDir), r1⟩]
          ++ logLine "host-local-ipam" r1
          ++ [⟨.getNS args.Netns, none⟩, ⟨.ifbTeardown ns args.IfName, r3⟩]
          ++ logLine "delete-ifb" r3
          ++ [⟨.containerTeardown ns args.IfName, some e⟩])
  | done (r1 : Option String) (ns : L.NetNS) (r3 : Option String)
      (r5 : Except String Unit) (s6 s7 sf : σ)
      (hstore : p.storeDelete n.Datastore (filepathBase args.Netns) s6 = (r5, s7))
      (hfinal : sf = match r5 with
        | .error err => p.loggerError "write-container-metadata" err s7
        | .ok _ => s7) :
      DelRun p args n (none, sf,
        [⟨.delegateDel "host-local" (p.ipamConfigBytes "0.0.0.0/0" n.Name n.DataDir), r1⟩]
          ++ logLine "host-local-ipam" r1
          ++ [⟨.getNS args.Netns, none⟩, ⟨.ifbTeardown ns args.IfName, r3⟩]
          ++ logLine "delete-ifb" r3
          ++ [⟨.containerTeardown ns args.IfName, none⟩,
              ⟨.storeDelete n.Datastore (filepathBase args.Netns), errText r5⟩]
          ++ logLine "write-container-metadata" (errText r5))

/-- Whether the configuration engages bandwidth shaping: the guard of `cmdAdd`. -/
def shapingOn (n : NetConf) : Prop :=
  n.BandwidthLimits.Rate > 0 ∧ n.BandwidthLimits.Burst > 0

instance (n : NetConf) : Decidable (shapingOn n) := by
  unfold shapingOn; infer_instance

/-- The record of the first six calls of `cmdAdd`, all without error. -/
def headCalls {σ : Type} {L : Lib} (p : CNIPlugin σ L) (args : CmdArgs) (n : NetConf)
    (ni : NetworkInfo) (cur : L.Current) (cfg : L.Config) : List (Entry L) :=
  [⟨.validate n, none⟩,
   ⟨.discover (discovererFor n) n.MTU, none⟩,
   ⟨.delegateAdd "host-local" (p.ipamConfigBytes ni.OverlaySubnet n.Name n.DataDir), none⟩,
   ⟨.configCreate p.HostNS args cur ni.MTU, none⟩,
   ⟨.vethPairCreate cfg, none⟩,
   ⟨.hostSetup cfg, none⟩]

/-- The record of the three shaping calls, all without error, when shaping is
engaged; nothing otherwise. -/
def shapingCalls {L : Lib} (n : NetConf) (cfg : L.Config) : List (Entry L) :=
  if shapingOn n then
    [⟨.ifbCreate cfg, none⟩,
     ⟨.inboundSetup n.BandwidthLimits.Rate n.BandwidthLimits.Burst cfg, none⟩,
     ⟨.outboundSetup n.BandwidthLimits.Rate n.BandwidthLimits.Burst cfg, none⟩]
  else []

/-- The ways a run of `cmdAdd` on the parsed configuration `n` ends: the returned
error, the final world state and the record of calls. -/
inductive AddRun {σ : Type} {L : Lib} (p : CNIPlugin σ L) (args : CmdArgs) (n : NetConf) :
    Option GoError × (σ × List (Entry L)) → Prop where
  | validateFailed (e : String) (sf : σ) :
      AddRun p args n (some (.typed ⟨100, "discover network info", "invalid config: " ++ e⟩), sf,
        [⟨.validate n, some e⟩])
  | discoverFailed (e : String) (sf : σ) :
      AddRun p args n (some (.typed ⟨100, "discover network info", e⟩), sf,
        [⟨.validate n, none⟩, ⟨.discover (discovererFor n) n.MTU, some e⟩])
  | delegateFailed (ni : NetworkInfo) (e : String) (sf : σ) :
      AddRun p args n (some (.typed ⟨100, "run ipam plugin", e⟩), sf,
        [⟨.validate n, none⟩, ⟨.discover (discovererFor n) n.MTU, none⟩,
         ⟨.delegateAdd "host-local" (p.ipamConfigBytes ni.OverlaySubnet n.Name n.DataDir), some e⟩])
  | convertFailed (ni : NetworkInfo) (res : L.Result) (e : String) (sf : σ)
      (hconv : p.newResultFromResult res = .error e) :
      AddRun p args n (some (.other ("convert result to current CNI version: " ++ e)), sf,
        [⟨.validate n, none⟩, ⟨.discover (discovererFor n) n.MTU, none⟩,
         ⟨.delegateAdd "host-local" (p.ipamConfigBytes ni.OverlaySubnet n.Name n.DataDir), none⟩])
  | configFailed (ni : NetworkInfo) (cur : L.Current) (e : String) (sf : σ) :
      AddRun p args n (some (.typed ⟨100, "create config", e⟩), sf,
        [⟨.validate n, none⟩, ⟨.discover (discovererFor n) n.MTU, none⟩,
         ⟨.delegateAdd "host-local" (p.ipamConfigBytes ni.OverlaySubnet n.Name n.DataDir), none⟩,
         ⟨.configCreate p.HostNS args cur ni.MTU, some e⟩])
  | vethFailed (ni : NetworkInfo) (cur : L.Current) (cfg : L.Config) (e : String) (sf : σ) :
      AddRun p args n (some (.typed ⟨100, "create veth pair", e⟩), sf,
        [⟨.validate n, none⟩, ⟨.discover (discovererFor n) n.MTU, none⟩,
         ⟨.delegateAdd "host-local" (p.ipamConfigBytes ni.OverlaySubnet n.Name n.DataDir), none⟩,
         ⟨.configCreate p.HostNS args cur ni.MTU, none⟩,
         ⟨.vethPairCreate cfg, some e⟩])
  | hostFailed (ni : NetworkInfo) (cur : L.Current) (cfg : L.Config) (e : String) (sf : σ) :
      AddRun p args n (some (.typed ⟨100, "set up host", e⟩), sf,
        [⟨.validate n, none⟩, ⟨.discover (discovererFor n) n.MTU, none⟩,
         ⟨.delegateAdd "host-local" (p.ipamConfigBytes ni.OverlaySubnet n.Name n.DataDir), none⟩,
         ⟨.configCreate p.HostNS args cur ni.MTU, none⟩,
         ⟨.vethPairCreate cfg, none⟩,
         ⟨.hostSetup cfg, some e⟩])
  | ifbFailed (ni : NetworkInfo) (cur : L.Current) (cfg : L.Config) (e : String) (sf : σ)
      (hon : shapingOn n) :
      AddRun p args n (some (.typed ⟨100, "set up ifb", e⟩), sf,
        headCalls p args n ni cur cfg ++ [⟨.ifbCreate cfg, some e⟩])
  | inboundFailed (ni : NetworkInfo) (cur : L.Current) (cfg : L.Config) (e : String) (sf : σ)
      (hon : shapingOn n) :
      AddRun p args n (some (.typed ⟨100, "set up inbound bandwidth limiting", e⟩), sf,
        headCalls p args n ni cur cfg ++
          [⟨.ifbCreate cfg, none⟩,
           ⟨.inboundSetup n.BandwidthLimits.Rate n.BandwidthLimits.Burst cfg, some e⟩])
  | outboundFailed (ni : NetworkInfo) (cur : L.Current) (cfg : L.Config) (e : String) (sf : σ)
      (hon : shapingOn n) :
      AddRun p args n (some (.typed ⟨100, "set up outbound bandwidth limiting", e⟩), sf,
        headCalls p args n ni cur cfg ++
          [⟨.ifbCreate cfg, none⟩,
           ⟨.inboundSetup n.BandwidthLimits.Rate n.BandwidthLimits.Burst cfg, none⟩,
           ⟨.outboundSetup n.BandwidthLimits.Rate n.BandwidthLimits.Burst cfg, some e⟩])
  | containerFailed (ni : NetworkInfo) (cur : L.Current) (cfg : L.Config) (e : String) (sf : σ) :
      AddRun p args n (some (.typed ⟨100, "set up container", e⟩), sf,
        headCalls p args n ni cur cfg ++ shapingCalls n cfg ++ [⟨.containerSetup cfg, some e⟩])
  | storeFailed (ni : NetworkInfo) (cur : L.Current) (cfg : L.Config) (e : String) (sf : σ) :
      AddRun p args n (some (.typed ⟨100, "write container metadata", e⟩), sf,
        headCalls p args n ni cur cfg ++ shapingCalls n cfg ++
          [⟨.containerSetup cfg, none⟩,
           ⟨.storeAdd n.Datastore (filepathBase args.Netns) (p.containerAddressIP cfg), some e⟩])
  | printFailed (ni : NetworkInfo) (cur : L.Current) (cfg : L.Config) (e : String) (sf : σ) :
      AddRun p args n (some (.other e), sf,
        headCalls p args n ni cur cfg ++ shapingCalls n cfg ++
          [⟨.containerSetup cfg, none⟩,
           ⟨.storeAdd n.Datastore (filepathBase args.Netns) (p.containerAddressIP cfg), none⟩,
           ⟨.printResult (p.asCNIResult cfg) n.CNIVersion, some e⟩])
  | done (ni : NetworkInfo) (cur : L.Current) (cfg : L.Config) (s9 s10 sf : σ)
      (hstore : p.storeAdd n.Datastore (filepathBase args.Netns) (p.containerAddressIP cfg) s9
        = (.ok (), s10))
      (hprint : p.printResult (p.asCNIResult cfg) n.CNIVersion s10 = (.ok (), sf)) :
      AddRun p args n (none, sf,
        headCalls p args n ni cur cfg ++ shapingCalls n cfg ++
          [⟨.containerSetup cfg, none⟩,
           ⟨.storeAdd n.Datastore (filepathBase args.Netns) (p.containerAddressIP cfg), none⟩,
           ⟨.printResult (p.asCNIResult cfg) n.CNIVersion, none⟩])

/-- The methods called in a record, in order. -/
def stepsOf {L : Lib} (tr : List (Entry L)) : List Step :=
  tr.map (fun e => e.call.step)

/-- The order of the calls of a complete run of `cmdAdd` on the configuration `n`. -/
def addOrder (n : NetConf) : List Step :=
  [.validate, .discover, .delegateAdd, .configCreate, .vethPairCreate, .hostSetup]
    ++ (if shapingOn n then [.ifbCreate, .inboundSetup, .outboundSetup] else [])
    ++ [.containerSetup, .storeAdd, .printResult]

/-- The message `cmdAdd` passes to `typedError` when a call to the method fails. -/
def addStage : Step → String
  | .validate => "discover network info"
  | .discover => "discover network info"
  | .delegateAdd => "run ipam plugin"
  | .configCreate => "create config"
  | .vethPairCreate => "create veth pair"
  | .hostSetup => "set up host"
  | .ifbCreate => "set up ifb"
  | .inboundSetup => "set up inbound bandwidth limiting"
  | .outboundSetup => "set up outbound bandwidth limiting"
  | .containerSetup => "set up container"
  | .storeAdd => "write container metadata"
  | _ => ""

/-! ## The lease store as a map -/

/-- Modelled from the spec: the lease store (`lib/datastore`, outside the sources at
hand) seen as a map from a datastore file and a handle to the recorded address. -/
abbrev LeaseMap : Type := String → String → Option String

/-- Modelled from the spec: `Add(datastoreRef, handle, address, metadata)` records the
address under the handle. -/
def LeaseMap.add (m : LeaseMap) (file handle ip : String) : LeaseMap :=
  fun f h => if f = file ∧ h = handle then some ip else m f h

/-- Modelled from the spec: `Delete(datastoreRef, handle)` removes the record of the
handle. -/
def LeaseMap.delete (m : LeaseMap) (file handle : String) : LeaseMap :=
  fun f h => if f = file ∧ h = handle then none else m f h

/-- A call of `p` run next to the lease map, which it leaves alone. -/
def keep {τ α : Type} (f : Op τ α) : Op (τ × LeaseMap) α :=
  fun st => ((f st.1).1, ((f st.1).2, st.2))

/-- Modelled from the spec: the plugin `p` with its lease store replaced by a map
whose `Add` and `Delete` succeed; every other call is the one of `p` and leaves the
map alone. -/
def withMapStore {τ : Type} {L : Lib} (p : CNIPlugin τ L) : CNIPlugin (τ × LeaseMap) L where
  HostNS := p.HostNS
  jsonUnmarshal := p.jsonUnmarshal
  validate := fun n => keep (p.validate n)
  discover := fun src mtu => keep (p.discover src mtu)
  ipamConfigBytes := p.ipamConfigBytes
  delegateAdd := fun pl b => keep (p.delegateAdd pl b)
  delegateDel := fun pl b => keep (p.delegateDel pl b)
  newResultFromResult := p.newResultFromResult
  configCreate := fun h a r m => keep (p.configCreate h a r m)
  vethPairCreate := fun cfg => keep (p.vethPairCreate cfg)
  hostSetup := fun cfg => keep (p.hostSetup cfg)
  ifbCreate := fun cfg => keep (p.ifbCreate cfg)
  ifbTeardown := fun n i => keep (p.ifbTeardown n i)
  inboundSetup := fun r b cfg => keep (p.inboundSetup r b cfg)
  outboundSetup := fun r b cfg => keep (p.outboundSetup r b cfg)
  containerSetup := fun cfg => keep (p.containerSetup cfg)
  containerTeardown := fun n i => keep (p.containerTeardown n i)
  storeAdd := fun file handle ip st => (.ok (), (st.1, st.2.add file handle ip))
  storeDelete := fun file handle st => (.ok (), (st.1, st.2.delete file handle))
  getNS := fun path => keep (p.getNS path)
  loggerError := fun a e st => (p.loggerError a e st.1, st.2)
  containerAddressIP := p.containerAddressIP
  asCNIResult := p.asCNIResult
  printResult := fun r v => keep (p.printResult r v)

/-! ## A concrete world for examples -/

/-- The library values of the examples: each one is a text. -/
abbrev textLib : Lib := ⟨String, String, String, String⟩

/-- The outcome of a scripted call to the method `st`: the error `failing` assigns to
it, or the value `v`. -/
def answer {α : Type} (failing : Step → Option String) (st : Step) (v : α) : Op Unit α :=
  fun _ =>
    match failing st with
    | some e => (.error e, ())
    | none => (.ok v, ())

/-- A plugin for the examples, over a world without state: the input parses to `conf`,
the method `st` fails with the text `failing st` when there is one, and the
conversion of the IPAM result fails with `convert` when there is one. -/
def scripted (conf : NetConf) (failing : Step → Option String) (convert : Option String) :
    CNIPlugin Unit textLib where
  HostNS := "/proc/self/ns/net"
  jsonUnmarshal := fun _ => .ok conf
  validate := fun _ => answer failing .validate ()
  discover := fun _ mtu => answer failing .discover ⟨"10.255.30.0/24", mtu⟩
  ipamConfigBytes := fun subnet name dataDir => subnet ++ " " ++ name ++ " " ++ dataDir
  delegateAdd := fun _ _ => answer failing .delegateAdd "10.255.30.2/24"
  delegateDel := fun _ _ => answer failing .delegateDel ()
  newResultFromResult := fun r =>
    match convert with
    | some e => .error e
    | none => .ok r
  configCreate := fun _ args r _ => answer failing .configCreate (args.IfName ++ "@" ++ r)
  vethPairCreate := fun _ => answer failing .vethPairCreate ()
  hostSetup := fun _ => answer failing .hostSetup ()
  ifbCreate := fun _ => answer failing .ifbCreate ()
  ifbTeardown := fun _ _ => answer failing .ifbTeardown ()
  inboundSetup := fun _ _ _ => answer failing .inboundSetup ()
  outboundSetup := fun _ _ _ => answer failing .outboundSetup ()
  containerSetup := fun _ => answer failing .containerSetup ()
  containerTeardown := fun _ _ => answer failing .containerTeardown ()
  storeAdd := fun _ _ _ => answer failing .storeAdd ()
  storeDelete := fun _ _ => answer failing .storeDelete ()
  getNS := fun path => answer failing .getNS path
  loggerError := fun _ _ _ => ()
  containerAddressIP := fun _ => "10.255.30.2"
  asCNIResult := fun cfg => cfg
  printResult := fun _ _ => answer failing .printResult ()

/-- The configuration of the examples, with the given subnet file and limits. -/
def confWith (subnetFile : String) (rate burst : Int) : NetConf :=
  { CNIVersion := "0.3.1", Name := "my-silk-network", PluginType := "silk", IPAMType := "",
    DataDir := "/tmp/cni-data-dir", SubnetFile := subnetFile, MTU := 0,
    Datastore := "/tmp/cni-data-dir/store.json", DaemonPort := 0,
    BandwidthLimits := ⟨rate, burst⟩ }

/-- The arguments of the examples: interface `ifName` in the namespace at `netns`. -/
def argsWith (netns ifName : String) : CmdArgs :=
  { ContainerID := "apricot", Netns := netns, IfName := ifName, Args := "", Path := "/opt/cni/bin",
    StdinData := "{}" }

/-- The scripted plugin with two inputs: the text `first` parses to `c1`, every other
input to `c2`. -/
def scriptedTwo (first : String) (c1 c2 : NetConf) (failing : Step → Option String) :
    CNIPlugin Unit textLib :=
  { scripted c1 failing none with
    jsonUnmarshal := fun data => if data = first then .ok c1 else .ok c2 }

/-- No call fails. -/
def noFailure : Step → Option String := fun _ => none

/-- Only the method `st` fails, with the text `e`. -/
def onlyFails (st : Step) (e : String) : Step → Option String :=
  fun st1 => if st1 = st then some e else none

/-! ## Runs of the recorded program -/

theorem record_apply {σ α : Type} {L : Lib} (c : Call L) (f : Op σ α) (s : σ)
    (tr : List (Entry L)) :
    record c f (s, tr) = ((f s).1, ((f s).2, tr ++ [⟨c, errText (f s).1⟩])) := rfl

/-- Every run of `cmdDel` on a well-formed configuration ends in one of the three
ways of `DelRun`. -/
theorem cmdDel_runs {σ : Type} {L : Lib} (p : CNIPlugin σ L) (args : CmdArgs) (s : σ)
    (n : NetConf) (hjson : p.jsonUnmarshal args.StdinData = .ok n) :
    DelRun p args n (cmdDel (traced p) args (s, [])) := by
  unfold cmdDel
  simp only [hjson, traced]
  simp only [record_apply (Call.delegateDel _ _)]
  rcases h1 : p.delegateDel "host-local" _ _ with ⟨e1 | _, s1⟩
  all_goals simp only [record_apply (Call.getNS _)]
  all_goals rcases h2 : p.getNS args.Netns _ with ⟨e2 | ns, s2⟩
  all_goals first
    | exact DelRun.nsMissing _ _ _
    | skip
  all_goals simp only [record_apply (Call.ifbTeardown _ _)]
  all_goals rcases h3 : p.ifbTeardown ns args.IfName _ with ⟨e3 | _, s3⟩
  all_goals simp only [record_apply (Call.containerTeardown _ _)]
  all_goals rcases h4 : p.containerTeardown ns args.IfName _ with ⟨e4 | _, s4⟩
  all_goals first
    | exact DelRun.teardownFailed _ _ _ _ _
    | skip
  all_goals simp only [record_apply (Call.storeDelete _ _)]
  all_goals rcases h5 : p.storeDelete n.Datastore _ _ with ⟨r5, s5⟩
  all_goals rcases r5 with e5 | _
  all_goals exact DelRun.done _ _ _ _ _ _ _ h5 rfl

/-- Every run of `cmdAdd` on a well-formed configuration ends in one of the ways of
`AddRun`. -/
theorem cmdAdd_runs {σ : Type} {L : Lib} (p : CNIPlugin σ L) (args : CmdArgs) (s : σ)
    (n : NetConf) (hjson : p.jsonUnmarshal args.StdinData = .ok n) :
    AddRun p args n (cmdAdd (traced p) args (s, [])) := by
  unfold cmdAdd getNetworkInfo
  simp only [hjson, traced]
  simp only [record_apply (Call.validate _)]
  rcases h1 : p.validate n _ with ⟨e1 | _, s1⟩
  · exact AddRun.validateFailed _ _
  simp only [record_apply (Call.discover _ _)]
  rcases h2 : p.discover _ _ _ with ⟨e2 | ni, s2⟩
  · exact AddRun.discoverFailed _ _
  simp only [record_apply (Call.delegateAdd _ _)]
  rcases h3 : p.delegateAdd _ _ _ with ⟨e3 | res, s3⟩
  · exact AddRun.delegateFailed _ _ _
  simp only []
  rcases h4 : p.newResultFromResult res with e4 | cur
  · exact AddRun.convertFailed _ res _ _ h4
  simp only [record_apply (Call.configCreate _ _ _ _)]
  rcases h5 : p.configCreate _ _ _ _ _ with ⟨e5 | cfg, s5⟩
  · exact AddRun.configFailed _ _ _ _
  simp only [record_apply (Call.vethPairCreate _)]
  rcases h6 : p.vethPairCreate _ _ with ⟨e6 | _, s6⟩
  · exact AddRun.vethFailed _ _ _ _ _
  simp only [record_apply (Call.hostSetup _)]
  rcases h7 : p.hostSetup _ _ with ⟨e7 | _, s7⟩
  · exact AddRun.hostFailed _ _ _ _ _
  simp only []
  by_cases hon : n.BandwidthLimits.Rate > 0 ∧ n.BandwidthLimits.Burst > 0
  · have hsh : shapingCalls n cfg =
        [⟨.ifbCreate cfg, none⟩,
         ⟨.inboundSetup n.BandwidthLimits.Rate n.BandwidthLimits.Burst cfg, none⟩,
         ⟨.outboundSetup n.BandwidthLimits.Rate n.BandwidthLimits.Burst cfg, none⟩] :=
      if_pos hon
    rw [if_pos hon]
    simp only [record_apply (Call.ifbCreate _)]
    rcases h8 : p.ifbCreate _ _ with ⟨e8 | _, s8⟩
    · exact AddRun.ifbFailed ni cur cfg _ _ hon
    simp only [record_apply (Call.inboundSetup _ _ _)]
    rcases h9 : p.inboundSetup _ _ _ _ with ⟨e9 | _, s9⟩
    · exact AddRun.inboundFailed ni cur cfg _ _ hon
    simp only [record_apply (Call.outboundSetup _ _ _)]
    rcases h10 : p.outboundSetup _ _ _ _ with ⟨e10 | _, s10⟩
    · exact AddRun.outboundFailed ni cur cfg _ _ hon
    simp only [record_apply (Call.containerSetup _)]
    rcases h11 : p.containerSetup _ _ with ⟨e11 | _, s11⟩
    · have key : AddRun p args n _ := AddRun.containerFailed ni cur cfg e11 s11
      rw [hsh] at key
      exact key
    simp only [record_apply (Call.storeAdd _ _ _)]
    rcases h12 : p.storeAdd _ _ _ _ with ⟨e12 | _, s12⟩
    · have key : AddRun p args n _ := AddRun.storeFailed ni cur cfg e12 s12
      rw [hsh] at key
      exact key
    simp only [record_apply (Call.printResult _ _)]
    rcases h13 : p.printResult _ _ _ with ⟨e13 | _, s13⟩
    · have key : AddRun p args n _ := AddRun.printFailed ni cur cfg e13 s13
      rw [hsh] at key
      exact key
    · have key : AddRun p args n _ := AddRun.done ni cur cfg s11 s12 s13 h12 h13
      rw [hsh] at key
      exact key
  · have hsh : shapingCalls n cfg = ([] : List (Entry L)) := if_neg hon
    rw [if_neg hon]
    simp only [record_apply (Call.containerSetup _)]
    rcases h11 : p.containerSetup _ _ with ⟨e11 | _, s11⟩
    · have key : AddRun p args n _ := AddRun.containerFailed ni cur cfg e11 s11
      rw [hsh] at key
      exact key
    simp only [record_apply (Call.storeAdd _ _ _)]
    rcases h12 : p.storeAdd _ _ _ _ with ⟨e12 | _, s12⟩
    · have key : AddRun p args n _ := AddRun.storeFailed ni cur cfg e12 s12
      rw [hsh] at key
      exact key
    simp only [record_apply (Call.printResult _ _)]
    rcases h13 : p.printResult _ _ _ with ⟨e13 | _, s13⟩
    · have key : AddRun p args n _ := AddRun.printFailed ni cur cfg e13 s13
      rw [hsh] at key
      exact key
    · have key : AddRun p args n _ := AddRun.done ni cur cfg s11 s12 s13 h12 h13
      rw [hsh] at key
      exact key

/-- Recording does not change what `cmdAdd` does: the returned error and the final
world state are those of the run without the record. -/
theorem cmdAdd_traced {σ : Type} {L : Lib} (p : CNIPlugin σ L) (args : CmdArgs) (s : σ)
    (tr : List (Entry L)) :
    ((cmdAdd (traced p) args (s, tr)).1, (cmdAdd (traced p) args (s, tr)).2.1)
      = cmdAdd p args s := by
  unfold cmdAdd getNetworkInfo
  simp only [traced]
  rcases h0 : p.jsonUnmarshal args.StdinData with e0 | n
  · rfl
  simp only [record_apply (Call.validate _)]
  rcases h1 : p.validate n _ with ⟨e1 | _, s1⟩
  · rfl
  simp only [record_apply (Call.discover _ _)]
  rcases h2 : p.discover _ _ _ with ⟨e2 | ni, s2⟩
  · rfl
  simp only [record_apply (Call.delegateAdd _ _)]
  rcases h3 : p.delegateAdd _ _ _ with ⟨e3 | res, s3⟩
  · rfl
  simp only []
  rcases h4 : p.newResultFromResult res with e4 | cur
  · rfl
  simp only [record_apply (Call.configCreate _ _ _ _)]
  rcases h5 : p.configCreate _ _ _ _ _ with ⟨e5 | cfg, s5⟩
  · rfl
  simp only [record_apply (Call.vethPairCreate _)]
  rcases h6 : p.vethPairCreate _ _ with ⟨e6 | _, s6⟩
  · rfl
  simp only [record_apply (Call.hostSetup _)]
  rcases h7 : p.hostSetup _ _ with ⟨e7 | _, s7⟩
  · rfl
  simp only []
  by_cases hon : n.BandwidthLimits.Rate > 0 ∧ n.BandwidthLimits.Burst > 0
  · rw [if_pos hon, if_pos hon]
    simp only [record_apply (Call.ifbCreate _)]
    rcases h8 : p.ifbCreate _ _ with ⟨e8 | _, s8⟩
    · rfl
    simp only [record_apply (Call.inboundSetup _ _ _)]
    rcases h9 : p.inboundSetup _ _ _ _ with ⟨e9 | _, s9⟩
    · rfl
    simp only [record_apply (Call.outboundSetup _ _ _)]
    rcases h10 : p.outboundSetup _ _ _ _ with ⟨e10 | _, s10⟩
    · rfl
    simp only [record_apply (Call.containerSetup _)]
    rcases h11 : p.containerSetup _ _ with ⟨e11 | _, s11⟩
    · rfl
    simp only [record_apply (Call.storeAdd _ _ _)]
    rcases h12 : p.storeAdd _ _ _ _ with ⟨e12 | _, s12⟩
    · rfl
    simp only [record_apply (Call.printResult _ _)]
    rcases h13 : p.printResult _ _ _ with ⟨e13 | _, s13⟩ <;> rfl
  · rw [if_neg hon, if_neg hon]
    simp only [record_apply (Call.containerSetup _)]
    rcases h11 : p.containerSetup _ _ with ⟨e11 | _, s11⟩
    · rfl
    simp only [record_apply (Call.storeAdd _ _ _)]
    rcases h12 : p.storeAdd _ _ _ _ with ⟨e12 | _, s12⟩
    · rfl
    simp only [record_apply (Call.printResult _ _)]
    rcases h13 : p.printResult _ _ _ with ⟨e13 | _, s13⟩ <;> rfl

/-- Recording does not change what `cmdDel` does. -/
theorem cmdDel_traced {σ : Type} {L : Lib} (p : CNIPlugin σ L) (args : CmdArgs) (s : σ)
    (tr : List (Entry L)) :
    ((cmdDel (traced p) args (s, tr)).1, (cmdDel (traced p) args (s, tr)).2.1)
      = cmdDel p args s := by
  unfold cmdDel
  simp only [traced]
  rcases h0 : p.jsonUnmarshal args.StdinData with e0 | n
  · rfl
  simp only [record_apply (Call.delegateDel _ _)]
  rcases h1 : p.delegateDel "host-local" _ _ with ⟨e1 | _, s1⟩
  all_goals simp only [record_apply (Call.getNS _)]
  all_goals rcases h2 : p.getNS args.Netns _ with ⟨e2 | ns, s2⟩
  all_goals first
    | rfl
    | skip
  all_goals simp only [record_apply (Call.ifbTeardown _ _)]
  all_goals rcases h3 : p.ifbTeardown ns args.IfName _ with ⟨e3 | _, s3⟩
  all_goals simp only [record_apply (Call.containerTeardown _ _)]
  all_goals rcases h4 : p.containerTeardown ns args.IfName _ with ⟨e4 | _, s4⟩
  all_goals first
    | rfl
    | skip
  all_goals simp only [record_apply (Call.storeDelete _ _)]
  all_goals rcases h5 : p.storeDelete n.Datastore _ _ with ⟨e5 | _, s5⟩
  all_goals rfl

/-! ## The claims -/

set_option maxHeartbeats 1600000 in
/-- C1: the calls of `cmdAdd` are an initial segment of the fixed order validation,
discovery, IPAM add, config creation, veth pair, host setup, (with shaping) IFB
creation, inbound, outbound, then container setup, lease-store add and printing the
result; a call that returns an error is the last call made and `cmdAdd` then returns
an error; as long as no call returns an error the run goes on to the next step, so
that a run without a failed call makes all the calls of the order, unless the
conversion of the IPAM result fails right after the IPAM add; `cmdAdd` returns no
error exactly when all the calls were made and none failed; no teardown or delete
call is ever made. -/
theorem cmdAdd_fixed_order_strict_abort {σ : Type} {L : Lib} (p : CNIPlugin σ L)
    (args : CmdArgs) (s : σ) (n : NetConf) (hjson : p.jsonUnmarshal args.StdinData = .ok n) :
    stepsOf (addTrace p args s) <+: addOrder n ∧
    (∀ e ∈ (addTrace p args s).dropLast, e.err = none) ∧
    ((∃ e ∈ addTrace p args s, e.err ≠ none) → addResult p args s ≠ none) ∧
    (addResult p args s = none → stepsOf (addTrace p args s) = addOrder n) ∧
    (∀ e ∈ addTrace p args s, e.call.step ≠ .delegateDel ∧ e.call.step ≠ .ifbTeardown ∧
      e.call.step ≠ .containerTeardown ∧ e.call.step ≠ .storeDelete) ∧
    ((∀ e ∈ addTrace p args s, e.err = none) →
      (stepsOf (addTrace p args s) = addOrder n ∧ addResult p args s = none) ∨
      (stepsOf (addTrace p args s) = [.validate, .discover, .delegateAdd] ∧
        ∃ res e, p.newResultFromResult res = .error e ∧
          addResult p args s
            = some (.other ("convert result to current CNI version: " ++ e)))) ∧
    (addResult p args s = none ↔
      (stepsOf (addTrace p args s) = addOrder n ∧ ∀ e ∈ addTrace p args s, e.err = none)) := by
  refine ⟨?g1, ?g2, ?g3, ?g4, ?g5, ?g6, ?g7⟩
  case g6 =>
    have hr := cmdAdd_runs p args s n hjson
    have ht := cmdAdd_traced p args s []
    unfold addTrace addResult
    rw [← ht]
    generalize cmdAdd (traced p) args (s, []) = run at hr
    cases hr
    case convertFailed ni res e sf hconv =>
      intro _
      exact Or.inr ⟨rfl, res, e, hconv, rfl⟩
    case done =>
      intro _
      refine Or.inl ⟨?_, rfl⟩
      simp only [headCalls, shapingCalls, addOrder, stepsOf]
      split_ifs <;> simp [Call.step]
    all_goals simp only [headCalls, shapingCalls]
    all_goals try split_ifs
    all_goals intro h
    all_goals exfalso
    all_goals simp at h
  case g7 =>
    have hr := cmdAdd_runs p args s n hjson
    have ht := cmdAdd_traced p args s []
    unfold addTrace addResult
    rw [← ht]
    generalize cmdAdd (traced p) args (s, []) = run at hr
    cases hr
    case convertFailed ni res e sf hconv =>
      constructor
      · intro h
        simp at h
      · intro h
        exfalso
        have h3 := congrArg List.length h.1
        simp only [addOrder, stepsOf] at h3
        split_ifs at h3 <;> simp at h3
    case done =>
      constructor
      · intro _
        simp only [headCalls, shapingCalls, addOrder, stepsOf]
        split_ifs <;> simp [Call.step]
      · intro _
        rfl
    all_goals constructor
    all_goals intro h
    all_goals exfalso
    all_goals first
      | (simp at h; done)
      | (have h2 := h.2
         simp only [headCalls, shapingCalls] at h2
         try split_ifs at h2
         all_goals simp at h2)
  all_goals have hr := cmdAdd_runs p args s n hjson
  all_goals have ht := cmdAdd_traced p args s []
  all_goals unfold addTrace
  all_goals try unfold addResult
  all_goals try rw [← ht]
  all_goals generalize cmdAdd (traced p) args (s, []) = run at hr
  all_goals cases hr
  all_goals simp only [headCalls, shapingCalls, addOrder, stepsOf]
  all_goals try split_ifs
  all_goals simp [Call.step]

theorem cmdAdd_fixed_order_strict_abort_witness :
    (scripted (confWith "/run/subnet.env" 5 7) (onlyFails .inboundSetup "tc failed") none).jsonUnmarshal
        (argsWith "/var/run/netns/apricot" "eth0").StdinData
      = .ok (confWith "/run/subnet.env" 5 7) ∧
    stepsOf (addTrace (scripted (confWith "/run/subnet.env" 5 7)
        (onlyFails .inboundSetup "tc failed") none) (argsWith "/var/run/netns/apricot" "eth0") ())
      = [.validate, .discover, .delegateAdd, .configCreate, .vethPairCreate, .hostSetup,
         .ifbCreate, .inboundSetup] ∧
    stepsOf (addTrace (scripted (confWith "/run/subnet.env" 5 7)
        (onlyFails .inboundSetup "tc failed") none) (argsWith "/var/run/netns/apricot" "eth0") ())
      <+: addOrder (confWith "/run/subnet.env" 5 7) ∧
    addResult (scripted (confWith "/run/subnet.env" 5 7) noFailure none)
        (argsWith "/var/run/netns/apricot" "eth0") () = none ∧
    stepsOf (addTrace (scripted (confWith "/run/subnet.env" 5 7) noFailure none)
        (argsWith "/var/run/netns/apricot" "eth0") ())
      = [.validate, .discover, .delegateAdd, .configCreate, .vethPairCreate, .hostSetup,
         .ifbCreate, .inboundSetup, .outboundSetup, .containerSetup, .storeAdd, .printResult] :=
  ⟨rfl, by decide,
    (cmdAdd_fixed_order_strict_abort (scripted (confWith "/run/subnet.env" 5 7)
      (onlyFails .inboundSetup "tc failed") none) (argsWith "/var/run/netns/apricot" "eth0") ()
      (confWith "/run/subnet.env" 5 7) rfl).1,
    by decide,
    ((cmdAdd_fixed_order_strict_abort (scripted (confWith "/run/subnet.env" 5 7) noFailure none)
      (argsWith "/var/run/netns/apricot" "eth0") ()
      (confWith "/run/subnet.env" 5 7) rfl).2.2.2.1 (by decide)).trans (by decide)⟩

/-- C2: on a well-formed configuration `cmdDel` calls the IPAM delete and the
namespace lookup, then, when the namespace resolves, the IFB teardown and the
container teardown, then, when that teardown succeeds, the lease-store delete,
whatever the IPAM delete, the IFB teardown and the store delete return; it returns an
error exactly when the namespace resolves and the container teardown fails, and the
error is then the typed error with code 100, message "teardown failed" and the text
of the teardown error. -/
theorem cmdDel_error_iff_teardown_fails {σ : Type} {L : Lib} (p : CNIPlugin σ L)
    (args : CmdArgs) (s : σ) (n : NetConf) (hjson : p.jsonUnmarshal args.StdinData = .ok n) :
    calls (delTrace p args s) =
      [.delegateDel, .getNS] ++
        (if failed (delTrace p args s) .getNS then []
         else [.ifbTeardown, .containerTeardown] ++
           (if failed (delTrace p args s) .containerTeardown then [] else [.storeDelete])) ∧
    (delResult p args s ≠ none ↔
      (failed (delTrace p args s) .getNS = false ∧
        failed (delTrace p args s) .containerTeardown = true)) ∧
    (∀ e ∈ delTrace p args s, e.call.step = .containerTeardown → ∀ t, e.err = some t →
      delResult p args s = some (.typed ⟨100, "teardown failed", t⟩)) := by
  have hr := cmdDel_runs p args s n hjson
  have ht := cmdDel_traced p args s []
  unfold delTrace delResult
  rw [← ht]
  generalize cmdDel (traced p) args (s, []) = run at hr
  cases hr with
  | nsMissing r1 e sf =>
    cases r1 <;> simp [calls, failed, logLine, Call.step]
  | teardownFailed r1 ns r3 e sf =>
    cases r1 <;> cases r3 <;> simp [calls, failed, logLine, Call.step]
  | done r1 ns r3 r5 s6 s7 sf hstore hfinal =>
    cases r1 <;> cases r3 <;> cases r5 <;> simp [calls, failed, logLine, Call.step, errText]

theorem cmdDel_error_iff_teardown_fails_witness :
    (scripted (confWith "/run/subnet.env" 0 0) (onlyFails .delegateDel "invalid CIDR address") none).jsonUnmarshal
        (argsWith "/var/run/netns/apricot" "eth0").StdinData
      = .ok (confWith "/run/subnet.env" 0 0) ∧
    delResult (scripted (confWith "/run/subnet.env" 0 0)
        (onlyFails .delegateDel "invalid CIDR address") none)
        (argsWith "/var/run/netns/apricot" "eth0") () = none ∧
    calls (delTrace (scripted (confWith "/run/subnet.env" 0 0)
        (onlyFails .delegateDel "invalid CIDR address") none)
        (argsWith "/var/run/netns/apricot" "eth0") ())
      = [.delegateDel, .getNS, .ifbTeardown, .containerTeardown, .storeDelete] :=
  ⟨rfl, by decide,
    (cmdDel_error_iff_teardown_fails (scripted (confWith "/run/subnet.env" 0 0)
      (onlyFails .delegateDel "invalid CIDR address") none)
      (argsWith "/var/run/netns/apricot" "eth0") () (confWith "/run/subnet.env" 0 0) rfl).1.trans
      (by decide)⟩

/-- C5: when the namespace lookup of a DEL run fails, `cmdDel` returns no error and
its calls are the IPAM delete followed by the namespace lookup, nothing else: no IFB
teardown, no container teardown, no lease-store delete. -/
theorem cmdDel_missing_namespace {σ : Type} {L : Lib} (p : CNIPlugin σ L)
    (args : CmdArgs) (s : σ) (n : NetConf) (hjson : p.jsonUnmarshal args.StdinData = .ok n)
    (hns : failed (delTrace p args s) .getNS = true) :
    delResult p args s = none ∧
    calls (delTrace p args s) = [.delegateDel, .getNS] ∧
    (∀ e ∈ delTrace p args s, e.call.step ≠ .ifbTeardown ∧ e.call.step ≠ .containerTeardown ∧
      e.call.step ≠ .storeDelete) := by
  have hr := cmdDel_runs p args s n hjson
  have ht := cmdDel_traced p args s []
  revert hns
  unfold delTrace delResult
  rw [← ht]
  generalize cmdDel (traced p) args (s, []) = run at hr
  cases hr with
  | nsMissing r1 e sf =>
    cases r1 <;> simp [calls, failed, logLine, Call.step]
  | teardownFailed r1 ns r3 e sf =>
    cases r1 <;> cases r3 <;> simp [calls, failed, logLine, Call.step]
  | done r1 ns r3 r5 s6 s7 sf hstore hfinal =>
    cases r1 <;> cases r3 <;> cases r5 <;> simp [calls, failed, logLine, Call.step, errText]

theorem cmdDel_missing_namespace_witness :
    failed (delTrace (scripted (confWith "/run/subnet.env" 0 0)
        (onlyFails .getNS "no such file or directory") none)
        (argsWith "/tmp/not/there" "eth0") ()) .getNS = true ∧
    delResult (scripted (confWith "/run/subnet.env" 0 0)
        (onlyFails .getNS "no such file or directory") none)
        (argsWith "/tmp/not/there" "eth0") () = none :=
  ⟨by decide,
    (cmdDel_missing_namespace (scripted (confWith "/run/subnet.env" 0 0)
      (onlyFails .getNS "no such file or directory") none)
      (argsWith "/tmp/not/there" "eth0") () (confWith "/run/subnet.env" 0 0) rfl (by decide)).1⟩

/-- C4: `cmdDel` makes no validation or discovery call; its first call is the IPAM
delete with the request built from the subnet "0.0.0.0/0", the configured name and
the configured data directory; and two invocations that differ only in the
`subnetFile`, `daemonPort`, `mtu` and `bandwidthLimits` of their configuration make
the same calls with the same arguments and outcomes, return the same error and leave
the same world. -/
theorem cmdDel_independent_of_discovery {σ : Type} {L : Lib} (p : CNIPlugin σ L)
    (a1 a2 : CmdArgs) (s : σ) (n1 n2 : NetConf)
    (h1 : p.jsonUnmarshal a1.StdinData = .ok n1) (h2 : p.jsonUnmarshal a2.StdinData = .ok n2)
    (hargs : a2 = { a1 with StdinData := a2.StdinData })
    (hconf : n2 = { n1 with SubnetFile := n2.SubnetFile, DaemonPort := n2.DaemonPort,
                            MTU := n2.MTU, BandwidthLimits := n2.BandwidthLimits }) :
    (∀ e ∈ delTrace p a1 s, e.call.step ≠ .validate ∧ e.call.step ≠ .discover) ∧
    (∃ r, (delTrace p a1 s).head? =
      some ⟨.delegateDel "host-local" (p.ipamConfigBytes "0.0.0.0/0" n1.Name n1.DataDir), r⟩) ∧
    cmdDel (traced p) a1 (s, []) = cmdDel (traced p) a2 (s, []) ∧
    cmdDel p a1 s = cmdDel p a2 s := by
  have hName : n2.Name = n1.Name := by rw [hconf]
  have hDir : n2.DataDir = n1.DataDir := by rw [hconf]
  have hStore : n2.Datastore = n1.Datastore := by rw [hconf]
  have hNetns : a2.Netns = a1.Netns := by rw [hargs]
  have hIf : a2.IfName = a1.IfName := by rw [hargs]
  refine ⟨?_, ?_, ?_, ?_⟩
  · have hr := cmdDel_runs p a1 s n1 h1
    unfold delTrace
    generalize cmdDel (traced p) a1 (s, []) = run at hr
    cases hr with
    | nsMissing r1 e sf =>
      cases r1 <;> simp [logLine, Call.step]
    | teardownFailed r1 ns r3 e sf =>
      cases r1 <;> cases r3 <;> simp [logLine, Call.step]
    | done r1 ns r3 r5 s6 s7 sf hstore hfinal =>
      cases r1 <;> cases r3 <;> cases r5 <;> simp [logLine, Call.step, errText]
  · have hr := cmdDel_runs p a1 s n1 h1
    unfold delTrace
    generalize cmdDel (traced p) a1 (s, []) = run at hr
    cases hr with
    | nsMissing r1 e sf => exact ⟨r1, rfl⟩
    | teardownFailed r1 ns r3 e sf => exact ⟨r1, rfl⟩
    | done r1 ns r3 r5 s6 s7 sf hstore hfinal => exact ⟨r1, rfl⟩
  · unfold cmdDel
    simp only [traced, h1, h2, hName, hDir, hStore, hNetns, hIf]
  · unfold cmdDel
    simp only [h1, h2, hName, hDir, hStore, hNetns, hIf]

theorem cmdDel_independent_of_discovery_witness :
    confWith "/path/does/not/exist" 5 7 ≠ confWith "/run/subnet.env" 0 0 ∧
    cmdDel (scriptedTwo "one" (confWith "/run/subnet.env" 0 0) (confWith "/path/does/not/exist" 5 7)
          (onlyFails .discover "daemon unreachable"))
        { argsWith "/var/run/netns/apricot" "eth0" with StdinData := "one" } ()
      = cmdDel (scriptedTwo "one" (confWith "/run/subnet.env" 0 0)
          (confWith "/path/does/not/exist" 5 7) (onlyFails .discover "daemon unreachable"))
        { argsWith "/var/run/netns/apricot" "eth0" with StdinData := "two" } () :=
  ⟨by decide,
   (cmdDel_independent_of_discovery
    (scriptedTwo "one" (confWith "/run/subnet.env" 0 0) (confWith "/path/does/not/exist" 5 7)
      (onlyFails .discover "daemon unreachable"))
    { argsWith "/var/run/netns/apricot" "eth0" with StdinData := "one" }
    { argsWith "/var/run/netns/apricot" "eth0" with StdinData := "two" } ()
    (confWith "/run/subnet.env" 0 0) (confWith "/path/does/not/exist" 5 7)
    rfl rfl rfl rfl).2.2.2⟩

/-- C9, what the code does: a DEL invocation whose network-info discovery would fail
(missing or unparseable subnet file) makes no validation or discovery call; it
returns no error when the namespace does not resolve or the container teardown
succeeds; the only error it can return is the typed error with code 100, message
"teardown failed" and the text of the failed container teardown as details; in
particular it never returns "discovering network info". -/
theorem cmdDel_ignores_subnet_file {σ : Type} {L : Lib} (p : CNIPlugin σ L)
    (args : CmdArgs) (s : σ) (n : NetConf) (hjson : p.jsonUnmarshal args.StdinData = .ok n)
    (_hmissing : ∀ s1, errText (getNetworkInfo p n s1).1 ≠ none) :
    (∀ e ∈ delTrace p args s, e.call.step ≠ .validate ∧ e.call.step ≠ .discover) ∧
    (∀ g, delResult p args s = some g →
      ∃ ns t, ⟨.containerTeardown ns args.IfName, some t⟩ ∈ delTrace p args s ∧
        g = .typed ⟨100, "teardown failed", t⟩) ∧
    (∀ t, delResult p args s ≠ some (.typed ⟨100, "discovering network info", t⟩)) ∧
    ((failed (delTrace p args s) .getNS = true ∨
        failed (delTrace p args s) .containerTeardown = false) →
      delResult p args s = none) := by
  have hr := cmdDel_runs p args s n hjson
  have ht := cmdDel_traced p args s []
  unfold delTrace delResult
  rw [← ht]
  generalize cmdDel (traced p) args (s, []) = run at hr
  cases hr with
  | nsMissing r1 e sf =>
    cases r1 <;> simp [failed, logLine, Call.step]
  | teardownFailed r1 ns r3 e sf =>
    cases r1 <;> cases r3 <;> simp [failed, logLine, Call.step]
  | done r1 ns r3 r5 s6 s7 sf hstore hfinal =>
    cases r1 <;> cases r3 <;> cases r5 <;> simp [failed, logLine, Call.step, errText]

theorem cmdDel_ignores_subnet_file_witness :
    (getNetworkInfo (scripted (confWith "/path/does/not/exist" 0 0)
        (onlyFails .discover "open /path/does/not/exist: no such file or directory") none)
        (confWith "/path/does/not/exist" 0 0) ()).1
      = .error "open /path/does/not/exist: no such file or directory" ∧
    delResult (scripted (confWith "/path/does/not/exist" 0 0)
        (onlyFails .discover "open /path/does/not/exist: no such file or directory") none)
        (argsWith "/var/run/netns/apricot" "eth0") () = none ∧
    (getNetworkInfo (scripted (confWith "/tmp/subnet.env" 0 0)
        (onlyFails .discover "unable to parse flannel subnet file") none)
        (confWith "/tmp/subnet.env" 0 0) ()).1
      = .error "unable to parse flannel subnet file" ∧
    delResult (scripted (confWith "/tmp/subnet.env" 0 0)
        (onlyFails .discover "unable to parse flannel subnet file") none)
        (argsWith "/var/run/netns/apricot" "eth0") () = none :=
  ⟨rfl,
   (cmdDel_ignores_subnet_file (scripted (confWith "/path/does/not/exist" 0 0)
      (onlyFails .discover "open /path/does/not/exist: no such file or directory") none)
      (argsWith "/var/run/netns/apricot" "eth0") () (confWith "/path/does/not/exist" 0 0) rfl
      (by intro s1; cases s1; decide)).2.2.2 (Or.inr (by decide)),
   rfl,
   (cmdDel_ignores_subnet_file (scripted (confWith "/tmp/subnet.env" 0 0)
      (onlyFails .discover "unable to parse flannel subnet file") none)
      (argsWith "/var/run/netns/apricot" "eth0") () (confWith "/tmp/subnet.env" 0 0) rfl
      (by intro s1; cases s1; decide)).2.2.2 (Or.inr (by decide))⟩

/-- C10: when the host setup, the container setup or the lease-store add of an ADD
run returns an error, `cmdAdd` returns the typed error with code 100, the text of
that error as details, and the message "set up host", "set up container" and
"write container metadata" respectively. -/
theorem cmdAdd_late_stage_labels {σ : Type} {L : Lib} (p : CNIPlugin σ L)
    (args : CmdArgs) (s : σ) (n : NetConf) (hjson : p.jsonUnmarshal args.StdinData = .ok n) :
    (∀ cfg t, ⟨.hostSetup cfg, some t⟩ ∈ addTrace p args s →
      addResult p args s = some (.typed ⟨100, "set up host", t⟩)) ∧
    (∀ cfg t, ⟨.containerSetup cfg, some t⟩ ∈ addTrace p args s →
      addResult p args s = some (.typed ⟨100, "set up container", t⟩)) ∧
    (∀ file handle ip t, ⟨.storeAdd file handle ip, some t⟩ ∈ addTrace p args s →
      addResult p args s = some (.typed ⟨100, "write container metadata", t⟩)) := by
  have hr := cmdAdd_runs p args s n hjson
  have ht := cmdAdd_traced p args s []
  unfold addTrace addResult
  rw [← ht]
  generalize cmdAdd (traced p) args (s, []) = run at hr
  cases hr
  all_goals simp only [headCalls, shapingCalls]
  all_goals try split_ifs
  all_goals simp
  all_goals intros
  all_goals subst_vars
  all_goals rfl

theorem cmdAdd_late_stage_labels_witness :
    addResult (scripted (confWith "/run/subnet.env" 0 0) (onlyFails .containerSetup "link not found") none)
        (argsWith "/var/run/netns/apricot" "eth0") ()
      = some (.typed ⟨100, "set up container", "link not found"⟩) :=
  (cmdAdd_late_stage_labels
    (scripted (confWith "/run/subnet.env" 0 0) (onlyFails .containerSetup "link not found") none)
    (argsWith "/var/run/netns/apricot" "eth0") () (confWith "/run/subnet.env" 0 0) rfl).2.1
    "eth0@10.255.30.2/24" "link not found"
    (by repeat (first | exact List.Mem.head _ | apply List.Mem.tail))

/-- C3, as the code has it: when validation or discovery fails `cmdAdd` returns the
typed error with message "discover network info", when the IPAM delegate fails the
one with message "run ipam plugin", and when the attachment-config creation fails
the one with message "create config"; the code is 100 and the details are the text
of the cause. -/
theorem cmdAdd_early_stage_labels {σ : Type} {L : Lib} (p : CNIPlugin σ L)
    (args : CmdArgs) (s : σ) (n : NetConf) (hjson : p.jsonUnmarshal args.StdinData = .ok n) :
    (∀ c t, ⟨.validate c, some t⟩ ∈ addTrace p args s →
      addResult p args s
        = some (.typed ⟨100, "discover network info", "invalid config: " ++ t⟩)) ∧
    (∀ src mtu t, ⟨.discover src mtu, some t⟩ ∈ addTrace p args s →
      addResult p args s = some (.typed ⟨100, "discover network info", t⟩)) ∧
    (∀ plugin bytes t, ⟨.delegateAdd plugin bytes, some t⟩ ∈ addTrace p args s →
      addResult p args s = some (.typed ⟨100, "run ipam plugin", t⟩)) ∧
    (∀ h a r m t, ⟨.configCreate h a r m, some t⟩ ∈ addTrace p args s →
      addResult p args s = some (.typed ⟨100, "create config", t⟩)) := by
  have hr := cmdAdd_runs p args s n hjson
  have ht := cmdAdd_traced p args s []
  unfold addTrace addResult
  rw [← ht]
  generalize cmdAdd (traced p) args (s, []) = run at hr
  cases hr
  all_goals simp only [headCalls, shapingCalls]
  all_goals try split_ifs
  all_goals simp
  all_goals intros
  all_goals subst_vars
  all_goals rfl

theorem cmdAdd_early_stage_labels_witness :
    addResult (scripted (confWith "/path/does/not/exist" 0 0)
        (onlyFails .discover "open /path/does/not/exist: no such file or directory") none)
        (argsWith "/var/run/netns/apricot" "eth0") ()
      = some (.typed ⟨100, "discover network info",
          "open /path/does/not/exist: no such file or directory"⟩) ∧
    addResult (scripted (confWith "/run/subnet.env" 0 0)
        (onlyFails .delegateAdd "invalid CIDR address: 10.255.30.0/33") none)
        (argsWith "/var/run/netns/apricot" "eth0") ()
      = some (.typed ⟨100, "run ipam plugin", "invalid CIDR address: 10.255.30.0/33"⟩) ∧
    addResult (scripted (confWith "/run/subnet.env" 0 0)
        (onlyFails .configCreate "IfName cannot be longer than 15 characters") none)
        (argsWith "/var/run/netns/apricot" "some-bad-eth-name") ()
      = some (.typed ⟨100, "create config", "IfName cannot be longer than 15 characters"⟩) :=
  ⟨(cmdAdd_early_stage_labels (scripted (confWith "/path/does/not/exist" 0 0)
      (onlyFails .discover "open /path/does/not/exist: no such file or directory") none)
    (argsWith "/var/run/netns/apricot" "eth0") () (confWith "/path/does/not/exist" 0 0) rfl).2.1
    (.flannel "/path/does/not/exist") 0 "open /path/does/not/exist: no such file or directory"
    (by repeat (first | exact List.Mem.head _ | apply List.Mem.tail)),
   (cmdAdd_early_stage_labels (scripted (confWith "/run/subnet.env" 0 0)
      (onlyFails .delegateAdd "invalid CIDR address: 10.255.30.0/33") none)
    (argsWith "/var/run/netns/apricot" "eth0") () (confWith "/run/subnet.env" 0 0) rfl).2.2.1
    "host-local" "10.255.30.0/24 my-silk-network /tmp/cni-data-dir"
    "invalid CIDR address: 10.255.30.0/33"
    (by repeat (first | exact List.Mem.head _ | apply List.Mem.tail)),
   (cmdAdd_early_stage_labels (scripted (confWith "/run/subnet.env" 0 0)
      (onlyFails .configCreate "IfName cannot be longer than 15 characters") none)
    (argsWith "/var/run/netns/apricot" "some-bad-eth-name") ()
    (confWith "/run/subnet.env" 0 0) rfl).2.2.2
    "/proc/self/ns/net" (argsWith "/var/run/netns/apricot" "some-bad-eth-name")
    "10.255.30.2/24" 0 "IfName cannot be longer than 15 characters"
    (by repeat (first | exact List.Mem.head _ | apply List.Mem.tail))⟩

/-- C8, as the code has it: an invalid JSON input is returned as it is; a failed
conversion of the IPAM result is returned as the untyped error "convert result to
current CNI version: " followed by its text, and a failed printing of the result is
returned untyped as it is; an error of any other collaborator call is returned as
the typed error with code 100, the stage message of that call and the text of the
cause as details; and an untyped error is returned in no other case. -/
theorem cmdAdd_error_shapes {σ : Type} {L : Lib} (p : CNIPlugin σ L)
    (args : CmdArgs) (s : σ) :
    (∀ e, p.jsonUnmarshal args.StdinData = .error e →
      addResult p args s = some (.other e)) ∧
    (∀ n, p.jsonUnmarshal args.StdinData = .ok n →
      (∀ c t, ⟨c, some t⟩ ∈ addTrace p args s → c.step ≠ .printResult →
        addResult p args s = some (.typed ⟨100, addStage c.step,
          if c.step = .validate then "invalid config: " ++ t else t⟩)) ∧
      (∀ x, addResult p args s = some (.other x) →
        (∃ c, ⟨c, some x⟩ ∈ addTrace p args s ∧ c.step = .printResult) ∨
        (∃ e, x = "convert result to current CNI version: " ++ e ∧
          ∀ en ∈ addTrace p args s, en.err = none)) ∧
      (∀ c t, ⟨c, some t⟩ ∈ addTrace p args s → c.step = .printResult →
        addResult p args s = some (.other t)) ∧
      (∀ ni s1 res s2 e, getNetworkInfo p n s = (.ok ni, s1) →
        p.delegateAdd "host-local" (p.ipamConfigBytes ni.OverlaySubnet n.Name n.DataDir) s1
          = (.ok res, s2) →
        p.newResultFromResult res = .error e →
        addResult p args s
          = some (.other ("convert result to current CNI version: " ++ e)))) := by
  refine ⟨?_, ?_⟩
  · intro e he
    unfold addResult cmdAdd
    simp only [he]
  intro n hjson
  refine ⟨?g1, ?g2, ?g3, ?g4⟩
  case g4 =>
    intro ni s1 res s2 e h1 h2 h3
    unfold addResult cmdAdd
    simp only [hjson, h1, h2, h3]
  all_goals have hr := cmdAdd_runs p args s n hjson
  all_goals have ht := cmdAdd_traced p args s []
  all_goals unfold addTrace addResult
  all_goals rw [← ht]
  all_goals generalize cmdAdd (traced p) args (s, []) = run at hr
  all_goals cases hr
  all_goals simp only [headCalls, shapingCalls]
  all_goals try split_ifs
  all_goals simp [addStage, Call.step]

/-- C8, counterexample: when the conversion of the IPAM result fails, the error
`cmdAdd` returns is not a typed error. -/
theorem cmdAdd_untyped_error :
    addResult (scripted (confWith "/run/subnet.env" 0 0) noFailure (some "unsupported version"))
        (argsWith "/var/run/netns/apricot" "eth0") ()
      = some (.other "convert result to current CNI version: unsupported version") ∧
    ∀ t, addResult (scripted (confWith "/run/subnet.env" 0 0) noFailure (some "unsupported version"))
        (argsWith "/var/run/netns/apricot" "eth0") () ≠ some (.typed t) := by
  have h : addResult (scripted (confWith "/run/subnet.env" 0 0) noFailure
      (some "unsupported version")) (argsWith "/var/run/netns/apricot" "eth0") ()
      = some (.other "convert result to current CNI version: unsupported version") := by
    decide
  refine ⟨h, fun t ht => ?_⟩
  rw [h] at ht
  simp at ht

/-- C6, counterexample: with rate -1 and burst 1, both nonzero, a run in which every
call succeeds makes no shaping call and goes from host setup to container setup. -/
theorem cmdAdd_negative_rate_skips_shaping :
    (confWith "/run/subnet.env" (-1) 1).BandwidthLimits.Rate ≠ 0 ∧
    (confWith "/run/subnet.env" (-1) 1).BandwidthLimits.Burst ≠ 0 ∧
    addResult (scripted (confWith "/run/subnet.env" (-1) 1) noFailure none)
        (argsWith "/var/run/netns/apricot" "eth0") () = none ∧
    stepsOf (addTrace (scripted (confWith "/run/subnet.env" (-1) 1) noFailure none)
        (argsWith "/var/run/netns/apricot" "eth0") ())
      = [.validate, .discover, .delegateAdd, .configCreate, .vethPairCreate, .hostSetup,
         .containerSetup, .storeAdd, .printResult] := by
  decide

/-- C6, as the code has it: in a run of `cmdAdd`, the IFB creation is called exactly
when host setup succeeded and rate and burst are both greater than zero; the inbound
setup exactly when the IFB creation succeeded, the outbound setup exactly when the
inbound setup succeeded; and when rate or burst is not greater than zero, a run whose
host setup succeeded continues with container setup and the run makes none of the
three shaping calls. -/
theorem cmdAdd_shaping_iff_positive {σ : Type} {L : Lib} (p : CNIPlugin σ L)
    (args : CmdArgs) (s : σ) (n : NetConf) (hjson : p.jsonUnmarshal args.StdinData = .ok n) :
    (Step.ifbCreate ∈ stepsOf (addTrace p args s) ↔
      (0 < n.BandwidthLimits.Rate ∧ 0 < n.BandwidthLimits.Burst) ∧
        ∃ cfg, ⟨.hostSetup cfg, none⟩ ∈ addTrace p args s) ∧
    (Step.inboundSetup ∈ stepsOf (addTrace p args s) ↔
      ∃ cfg, ⟨.ifbCreate cfg, none⟩ ∈ addTrace p args s) ∧
    (Step.outboundSetup ∈ stepsOf (addTrace p args s) ↔
      ∃ cfg, ⟨.inboundSetup n.BandwidthLimits.Rate n.BandwidthLimits.Burst cfg, none⟩
        ∈ addTrace p args s) ∧
    (¬ (0 < n.BandwidthLimits.Rate ∧ 0 < n.BandwidthLimits.Burst) →
      (∃ cfg, ⟨.hostSetup cfg, none⟩ ∈ addTrace p args s) →
      [Step.validate, .discover, .delegateAdd, .configCreate, .vethPairCreate, .hostSetup,
        .containerSetup] <+: stepsOf (addTrace p args s)) ∧
    (¬ (0 < n.BandwidthLimits.Rate ∧ 0 < n.BandwidthLimits.Burst) →
      ∀ e ∈ addTrace p args s, e.call.step ≠ .ifbCreate ∧ e.call.step ≠ .inboundSetup ∧
        e.call.step ≠ .outboundSetup) := by
  have hr := cmdAdd_runs p args s n hjson
  unfold addTrace
  generalize cmdAdd (traced p) args (s, []) = run at hr
  have hdef : shapingOn n ↔ (0 < n.BandwidthLimits.Rate ∧ 0 < n.BandwidthLimits.Burst) :=
    Iff.rfl
  rw [← hdef]
  cases hr
  all_goals simp only [headCalls, shapingCalls, stepsOf]
  all_goals try split_ifs
  all_goals simp [Call.step]
  all_goals assumption

theorem cmdAdd_shaping_iff_positive_witness :
    (0 < (confWith "/run/subnet.env" 5 0).BandwidthLimits.Rate ∧
      ¬ 0 < (confWith "/run/subnet.env" 5 0).BandwidthLimits.Burst) ∧
    Step.ifbCreate ∉ stepsOf (addTrace (scripted (confWith "/run/subnet.env" 5 0) noFailure none)
        (argsWith "/var/run/netns/apricot" "eth0") ()) :=
  ⟨by decide, fun h =>
    absurd ((cmdAdd_shaping_iff_positive (scripted (confWith "/run/subnet.env" 5 0) noFailure none)
      (argsWith "/var/run/netns/apricot" "eth0") () (confWith "/run/subnet.env" 5 0) rfl).1.mp h).1.2
      (by decide)⟩

theorem cmdAdd_error_shapes_witness :
    addResult (scripted (confWith "/run/subnet.env" 5 7) (onlyFails .ifbCreate "file exists") none)
        (argsWith "/var/run/netns/apricot" "eth0") ()
      = some (.typed ⟨100, "set up ifb", "file exists"⟩) ∧
    addResult (scripted (confWith "/run/subnet.env" 5 7) noFailure (some "unsupported version"))
        (argsWith "/var/run/netns/apricot" "eth0") ()
      = some (.other "convert result to current CNI version: unsupported version") ∧
    addResult (scripted (confWith "/run/subnet.env" 5 7)
        (onlyFails .printResult "unsupported CNI version") none)
        (argsWith "/var/run/netns/apricot" "eth0") ()
      = some (.other "unsupported CNI version") :=
  ⟨((cmdAdd_error_shapes (scripted (confWith "/run/subnet.env" 5 7)
        (onlyFails .ifbCreate "file exists") none)
      (argsWith "/var/run/netns/apricot" "eth0") ()).2 (confWith "/run/subnet.env" 5 7) rfl).1
      (.ifbCreate "eth0@10.255.30.2/24") "file exists"
      (by repeat (first | exact List.Mem.head _ | apply List.Mem.tail))
      (by decide),
   ((cmdAdd_error_shapes (scripted (confWith "/run/subnet.env" 5 7) noFailure
        (some "unsupported version"))
      (argsWith "/var/run/netns/apricot" "eth0") ()).2 (confWith "/run/subnet.env" 5 7) rfl).2.2.2
      ⟨"10.255.30.0/24", 0⟩ () "10.255.30.2/24" () "unsupported version" rfl rfl rfl,
   ((cmdAdd_error_shapes (scripted (confWith "/run/subnet.env" 5 7)
        (onlyFails .printResult "unsupported CNI version") none)
      (argsWith "/var/run/netns/apricot" "eth0") ()).2 (confWith "/run/subnet.env" 5 7) rfl).2.2.1
      (.printResult "eth0@10.255.30.2/24" "0.3.1") "unsupported CNI version"
      (by repeat (first | exact List.Mem.head _ | apply List.Mem.tail))
      rfl⟩

/-- C7: a successful `cmdAdd` calls the lease-store add on the configured datastore
with the key `filepath.Base` of the namespace path and the address of the attachment
config it set up; a `cmdDel` whose namespace resolves and whose container teardown
succeeds calls the lease-store delete on the same datastore with the same key; and
over the store as a map, the record of that key is present after the ADD and absent
after the DEL that follows it. -/
theorem add_then_del_same_lease_key {τ : Type} {L : Lib} (p : CNIPlugin τ L)
    (a d : CmdArgs) (t : τ) (m : LeaseMap) (na nd : NetConf)
    (ha : p.jsonUnmarshal a.StdinData = .ok na) (hd : p.jsonUnmarshal d.StdinData = .ok nd)
    (hns : d.Netns = a.Netns) (hds : nd.Datastore = na.Datastore) :
    (addResult p a t = none →
      ∃ cfg, ⟨.containerSetup cfg, none⟩ ∈ addTrace p a t ∧
        ⟨.storeAdd na.Datastore (filepathBase a.Netns) (p.containerAddressIP cfg), none⟩
          ∈ addTrace p a t) ∧
    (failed (delTrace p d t) .getNS = false →
      failed (delTrace p d t) .containerTeardown = false →
      ∃ r, ⟨.storeDelete na.Datastore (filepathBase a.Netns), r⟩ ∈ delTrace p d t) ∧
    ((cmdAdd (withMapStore p) a (t, m)).1 = none →
      (∃ cfg, (cmdAdd (withMapStore p) a (t, m)).2.2 na.Datastore (filepathBase a.Netns)
        = some (p.containerAddressIP cfg)) ∧
      (failed (delTrace (withMapStore p) d (cmdAdd (withMapStore p) a (t, m)).2) .getNS = false →
        failed (delTrace (withMapStore p) d (cmdAdd (withMapStore p) a (t, m)).2)
          .containerTeardown = false →
        (cmdDel (withMapStore p) d (cmdAdd (withMapStore p) a (t, m)).2).1 = none ∧
        (cmdDel (withMapStore p) d (cmdAdd (withMapStore p) a (t, m)).2).2.2
          na.Datastore (filepathBase a.Netns) = none)) := by
  refine ⟨?_, ?_, ?_⟩
  · have hr := cmdAdd_runs p a t na ha
    have ht := cmdAdd_traced p a t []
    unfold addTrace addResult
    rw [← ht]
    generalize cmdAdd (traced p) a (t, []) = run at hr
    cases hr
    all_goals simp only [headCalls, shapingCalls]
    all_goals try split_ifs
    all_goals simp
  · have hr := cmdDel_runs p d t nd hd
    unfold delTrace
    generalize cmdDel (traced p) d (t, []) = run at hr
    rw [← hns, ← hds]
    cases hr with
    | nsMissing r1 e sf =>
      cases r1 <;> simp [failed, logLine, Call.step]
    | teardownFailed r1 ns r3 e sf =>
      cases r1 <;> cases r3 <;> simp [failed, logLine, Call.step]
    | done r1 ns r3 r5 s6 s7 sf hstore hfinal =>
      cases r1 <;> cases r3 <;> cases r5 <;> simp [failed, logLine, Call.step, errText]
  · intro hok
    have hrA := cmdAdd_runs (withMapStore p) a (t, m) na ha
    have htA := cmdAdd_traced (withMapStore p) a (t, m) []
    generalize cmdAdd (traced (withMapStore p)) a ((t, m), []) = run at hrA htA
    rw [← htA] at hok ⊢
    cases hrA
    case done ni cur cfg s9 s10 sf hstore hprint =>
      have h10 : s10.2 = s9.2.add na.Datastore (filepathBase a.Netns) (p.containerAddressIP cfg) := by
        have := congrArg (fun x => x.2.2) hstore
        exact this.symm
      have hsf : sf.2 = s10.2 := by
        have := congrArg (fun x => x.2.2) hprint
        exact this.symm
      refine ⟨⟨cfg, ?_⟩, ?_⟩
      · show sf.2 na.Datastore (filepathBase a.Netns) = _
        rw [hsf, h10]
        simp [LeaseMap.add]
      · show failed (delTrace (withMapStore p) d sf) .getNS = false →
          failed (delTrace (withMapStore p) d sf) .containerTeardown = false →
          (cmdDel (withMapStore p) d sf).1 = none ∧
          (cmdDel (withMapStore p) d sf).2.2 na.Datastore (filepathBase a.Netns) = none
        have hrD := cmdDel_runs (withMapStore p) d sf nd hd
        have htD := cmdDel_traced (withMapStore p) d sf []
        unfold delTrace
        generalize cmdDel (traced (withMapStore p)) d (sf, []) = runD at hrD htD
        rw [← htD]
        cases hrD with
        | nsMissing r1 e sf =>
          cases r1 <;> simp [failed, logLine, Call.step]
        | teardownFailed r1 ns r3 e sf =>
          cases r1 <;> cases r3 <;> simp [failed, logLine, Call.step]
        | done r1 ns r3 r5 s6 s7 sf2 hstore2 hfinal =>
          intro _ _
          have h5 : r5 = .ok () := (congrArg (fun x => x.1) hstore2).symm
          have h7 : s7.2 = s6.2.delete nd.Datastore (filepathBase d.Netns) :=
            (congrArg (fun x => x.2.2) hstore2).symm
          subst h5
          have hf : sf2 = s7 := hfinal
          subst hf
          refine ⟨rfl, ?_⟩
          show sf2.2 na.Datastore (filepathBase a.Netns) = none
          rw [h7, hns, hds]
          simp [LeaseMap.delete]
    all_goals simp at hok

theorem add_then_del_same_lease_key_witness :
    filepathBase (argsWith "/var/run/netns/apricot" "eth0").Netns = "apricot" ∧
    (cmdAdd (withMapStore (scripted (confWith "/run/subnet.env" 0 0) noFailure none))
        (argsWith "/var/run/netns/apricot" "eth0") ((), fun _ _ => none)).2.2
        "/tmp/cni-data-dir/store.json" "apricot" = some "10.255.30.2" ∧
    (cmdDel (withMapStore (scripted (confWith "/run/subnet.env" 0 0) noFailure none))
        (argsWith "/var/run/netns/apricot" "eth0")
        (cmdAdd (withMapStore (scripted (confWith "/run/subnet.env" 0 0) noFailure none))
          (argsWith "/var/run/netns/apricot" "eth0") ((), fun _ _ => none)).2).2.2
        (confWith "/run/subnet.env" 0 0).Datastore
        (filepathBase (argsWith "/var/run/netns/apricot" "eth0").Netns) = none :=
  ⟨by decide, by decide,
    (((add_then_del_same_lease_key (scripted (confWith "/run/subnet.env" 0 0) noFailure none)
      (argsWith "/var/run/netns/apricot" "eth0") (argsWith "/var/run/netns/apricot" "eth0")
      () (fun _ _ => none) (confWith "/run/subnet.env" 0 0) (confWith "/run/subnet.env" 0 0)
      rfl rfl rfl rfl).2.2 (by decide)).2 (by decide) (by decide)).2⟩


end Silk
